import Mathlib

/-!
Verification of the vocabulary-encoding and sparse-row-construction subsystem
of `educe` (`educe/rst_dt/learning/doc_vectorizer.py` and
`educe/learning/keygroup_vectorizer.py`), as a shallow embedding in Lean 4.

Python dicts are represented as association lists (`List (key × value)`,
lookup returns the first binding), Python `Counter` objects by their lookup
semantics, Python numerics by `ℚ`/`ℤ`, and raised exceptions by an `Except`
result.  The source is Python 2: `fit_transform` and `transform` are
generator functions, so the embedded `*_run` definitions give the semantics
of driving the returned generator to completion (the body of a generator
only runs when it is iterated).
-/

namespace Educe

/-- A Python exception, identified by its class and message. -/
inductive PyErr where
  | valueError (msg : String)
  | notImplementedError (msg : String)
  | attributeError (attr : String)
deriving DecidableEq, Repr

/-- A raw feature value: numeric (int/float), string, or tuple.  A tuple is
carried by its canonical textual form `str(v)`, which is all the encoder
uses of it (`'{}{}{}'.format(f, separator, str(v))`). -/
inductive FV where
  | num (n : ℤ)
  | str (s : String)
  | tup (s : String)
deriving DecidableEq, Repr

/-- A `min_df`/`max_df`/`max_features` threshold: the source distinguishes
values by `isinstance(x, numbers.Integral)`, so a Python `int` and a Python
`float` are distinct even when they denote the same number. -/
inductive Thresh where
  | int (n : ℤ)
  | float (q : ℚ)
deriving DecidableEq, Repr

/-- Numeric value of a threshold (used by the sign check in `__init__`). -/
def Thresh.val : Thresh → ℚ
  | .int n => (n : ℚ)
  | .float q => q

/-- Resolve a threshold against the corpus size, as in `fit_transform`:
an integral value is taken as an absolute document count, a float as a
proportion of `n_doc` (`max_df * n_doc`). -/
def Thresh.resolve : Thresh → ℕ → ℚ
  | .int n, _ => (n : ℤ)
  | .float q, nDoc => q * (nDoc : ℚ)

/-- An encoded feature: synthesized name and numeric value. -/
abbrev EncPair := String × ℤ

/-- A vocabulary: a Python dict from feature name to feature id, as an
association list (first binding wins on lookup). -/
abbrev Vocab := List (String × ℤ)

/-- The non-breaking space character `u'\xa0'`. -/
def nbsp : Char := Char.ofNat 0xA0

/-- `v.replace(u'\xa0', u' ')` from `_extract_feature_vectors`: since the
pattern is a single character, the replacement is a character map folding
every non-breaking space to a plain space. -/
def fold_nbsp (s : String) : String :=
  String.mk (s.toList.map (fun c => if c = nbsp then ' ' else c))

/-- One-hot encoding of a single (name, value) pair, from
`_extract_feature_vectors` (`doc_vectorizer.py:284-302`): a tuple becomes
`(name ++ sep ++ str(v), 1)`; a string first has non-breaking spaces folded
to plain spaces and then becomes `(name ++ sep ++ v, 1)`; a numeric value
passes through unchanged. -/
def one_hot_pair (sep : String) : String × FV → EncPair
  | (f, .tup s) => (f ++ sep ++ s, 1)
  | (f, .str s) => (f ++ sep ++ fold_nbsp s, 1)
  | (f, .num n) => (f, n)

/-- One step of `feat_cnt[fn] += fv` on a `Counter` represented as an
association list: add to the existing binding, or append a new one. -/
def add_count (acc : List EncPair) (p : EncPair) : List EncPair :=
  if (acc.lookup p.1).isSome then
    acc.map (fun q => if q.1 = p.1 then (q.1, q.2 + p.2) else q)
  else
    acc ++ [p]

/-- `feat_cnt = Counter(); for fn, fv in oh_feats: feat_cnt[fn] += fv`
(`doc_vectorizer.py:304-307`): sum the values of entries sharing a
synthesized name.  The `Counter` is represented by an association list in
first-encounter order; the source comments that the emitted order is not
significant. -/
def counter_merge (l : List EncPair) : List EncPair :=
  l.foldl add_count []

/-- Per-instance encoding from `_extract_feature_vectors`: one-hot encode
every raw pair, then merge duplicates by summing. -/
def encode_instance (sep : String) (feats : List (String × FV)) : List EncPair :=
  counter_merge (feats.map (one_hot_pair sep))

/-- A document, abstracted (as the spec's §6 collaborator contract does) to
the ordered raw feature sequences the assembler delivers, one per instance. -/
abbrev RawDoc := List (List (String × FV))

/-- `_extract_feature_vectors` at document level: one encoded feature
vector per instance, in instance order. -/
def extract_feature_vectors (sep : String) (doc : RawDoc) : List (List EncPair) :=
  doc.map (encode_instance sep)

/-- `fn in vocabulary`: the guard of the row comprehension in `_instances`. -/
def include_feature (voc : Vocab) (p : EncPair) : Bool :=
  (voc.lookup p.1).isSome

/-- One sparse row, from `_instances` (`doc_vectorizer.py:322-324`):
`[(vocabulary[fn], fv) for fn, fv in feat_vec if fn in vocabulary]`.
The indexing is guarded by the membership test, so it cannot fail; `getD 0`
is that infallible read. -/
def instance_row (voc : Vocab) (fv : List EncPair) : List (ℤ × ℤ) :=
  (fv.filter (include_feature voc)).map (fun p => ((voc.lookup p.1).getD 0, p.2))

/-- `_instances`: for each document, analyze it and yield one row per
extracted feature vector, in document order then instance order. -/
def instances (sep : String) (voc : Vocab) (corpus : List RawDoc) :
    List (List (ℤ × ℤ)) :=
  (corpus.map (fun doc => (extract_feature_vectors sep doc).map (instance_row voc))).flatten

/-! ### `KeyGroupVectorizer._count_vocab` (fixed-vocabulary path),
`keygroup_vectorizer.py:53-74` -/

/-- The in-vocabulary encoded features of one vector: `vocabulary[feature]`
under `try: ... except KeyError: continue` keeps a feature exactly when its
name is in the vocabulary. -/
def kg_row (voc : Vocab) (vec : List EncPair) : List (ℤ × ℤ) :=
  vec.filterMap (fun p =>
    match voc.lookup p.1 with
    | some i => some (i, p.2)
    | none => none)

/-- The accumulation loop of `_count_vocab`: a flat `feature_acc` buffer and
the `row_ptr` offsets (starting at 0, one more offset appended after each
vector, equal to the buffer length at that point). -/
def kg_accum (voc : Vocab) (vectors : List (List EncPair)) :
    List (ℤ × ℤ) × List ℕ :=
  vectors.foldl
    (fun st vec =>
      let acc := st.1 ++ kg_row voc vec
      (acc, st.2 ++ [acc.length]))
    ([], [0])

/-- The slicing loop of `_count_vocab`:
`for i in xrange(len(row_ptr) - 1): x = feature_acc[row_ptr[i]:row_ptr[i+1]]`,
pairing each offset with its successor. -/
def count_vocab_fixed (voc : Vocab) (vectors : List (List EncPair)) :
    List (List (ℤ × ℤ)) :=
  let st := kg_accum voc vectors
  (st.2.zip st.2.tail).map (fun p => ((st.1.drop p.1).take (p.2 - p.1)))

/-! ### Vocabulary growth and document frequency (`_vocab_df`,
`doc_vectorizer.py:327-361`) -/

/-- One step of the growable `defaultdict` with
`default_factory = vocabulary.__len__`: a missing key is inserted with the
current size as its id; a present key is left alone. -/
def insert_feature (acc : Vocab) (f : String) : Vocab :=
  if (acc.lookup f).isSome then acc else acc ++ [(f, (acc.length : ℤ))]

/-- `doc_features`: all feature names of a document's extracted feature
vectors, flattened in emission order. -/
def doc_features (sep : String) (doc : RawDoc) : List String :=
  ((extract_feature_vectors sep doc).map (fun fv => fv.map Prod.fst)).flatten

/-- The vocabulary grown by `_vocab_df` with `fixed_vocab=False`: every
document's features are inserted in traversal order (document order ×
instance order × feature-emission order). -/
def corpus_vocab (sep : String) (corpus : List RawDoc) : Vocab :=
  corpus.foldl (fun acc doc => (doc_features sep doc).foldl insert_feature acc) []

/-- The document-frequency `Counter` of `_vocab_df`, by its lookup
semantics: `vocab_df[feature] += 1` once per document whose feature set
contains the feature (`for feature in set(doc_features)`). -/
def doc_freq (sep : String) (corpus : List RawDoc) (f : String) : ℕ :=
  corpus.countP (fun doc => f ∈ doc_features sep doc)

/-! ### `_limit_vocabulary` (`doc_vectorizer.py:363-407`).

The grown vocabulary's ids are contiguous over `[0, n)` in insertion order,
so it is represented here by its id-ordered name list; `mask[old_index]` and
`new_indices[old_index]` become positional zips against that list. -/

/-- The inclusion test behind the combined mask: `df <= high` and
`df >= low`. -/
def keep_feat (df : String → ℕ) (high low : ℚ) (f : String) : Bool :=
  decide ((df f : ℚ) ≤ high) && decide (low ≤ (df f : ℚ))

/-- `dfs` and the combined mask of `_limit_vocabulary` (lines 377-385):
per feature in id order, `1 & (df <= high) & (df >= low)`. -/
def df_mask (df : String → ℕ) (high low : ℚ) (vocab : List String) : List Bool :=
  (vocab.map df).map (fun d => decide ((d : ℚ) ≤ high) && decide (low ≤ (d : ℚ)))

/-- The pure-Python `np.cumsum(mask) - 1` reimplementation (lines 391-396):
`prev_idx` starts at `-1` and each mask entry adds 0 or 1. -/
def new_indices_from (prev : ℤ) : List Bool → List ℤ
  | [] => []
  | m :: ms =>
    let nxt := prev + (if m then 1 else 0)
    nxt :: new_indices_from nxt ms

/-- `_limit_vocabulary` with both bounds resolved (as `fit_transform` always
supplies them) and `limit=None`: compute the mask and the cumulative new
indices, then keep each masked feature under its new id and collect the
rest as the removed set.  The dict iteration of lines 399-405 is keyed by
`old_index`, so it is rendered as a positional walk over the id-ordered
name list zipped with `mask` and `new_indices`. -/
def limit_vocabulary (vocab : List String) (df : String → ℕ) (high low : ℚ) :
    List (String × ℤ) × List String :=
  let mask := df_mask df high low vocab
  let newIdx := new_indices_from (-1) mask
  let triples := (vocab.zip mask).zip newIdx
  (triples.filterMap (fun t => if t.1.2 then some (t.1.1, t.2) else none),
   triples.filterMap (fun t => if t.1.2 then none else some t.1.1))

/-! ### `DocumentCountVectorizer` state and corpus-level methods -/

/-- The fields of `DocumentCountVectorizer` the corpus-level methods read.
`vocabulary` is the constructor argument; `vocabulary_` and
`fixed_vocabulary_` are attributes that may not have been set yet
(`none` = attribute absent, reading it raises `AttributeError`). -/
structure DocumentCountVectorizer where
  max_df : Thresh
  min_df : Thresh
  max_features : Option Thresh
  vocabulary : Option Vocab
  separator : String
  vocabulary_ : Option Vocab
  fixed_vocabulary_ : Option Bool
deriving DecidableEq, Repr

/-- `DocumentCountVectorizer.__init__` (lines 157-206): store the
configuration, rejecting a negative `max_df`/`min_df` and a `max_features`
that is not a positive Python integer.  (The source interpolates
`repr(max_features)` into the second message; the constant part is kept.) -/
def mk_vectorizer (max_df min_df : Thresh) (max_features : Option Thresh)
    (vocabulary : Option Vocab) (separator : String) :
    Except PyErr DocumentCountVectorizer :=
  if max_df.val < 0 ∨ min_df.val < 0 then
    .error (.valueError "negative value for max_df of min_df")
  else
    match max_features with
    | some (.float _) =>
      .error (.valueError "max_features should be int > 0 or None")
    | some (.int n) =>
      if n ≤ 0 then .error (.valueError "max_features should be int > 0 or None")
      else .ok ⟨max_df, min_df, max_features, vocabulary, separator, none, none⟩
    | none => .ok ⟨max_df, min_df, max_features, vocabulary, separator, none, none⟩

/-- `_validate_vocabulary` (lines 423-432): a supplied vocabulary, if any,
is checked nonempty and copied into `vocabulary_`; otherwise only
`fixed_vocabulary_` is set — `vocabulary_` is left unset. -/
def validate_vocabulary (v : DocumentCountVectorizer) :
    Except PyErr DocumentCountVectorizer :=
  match v.vocabulary with
  | some voc =>
    if voc = [] then .error (.valueError "empty vocabulary passed to fit")
    else .ok { v with fixed_vocabulary_ := some true, vocabulary_ := some voc }
  | none => .ok { v with fixed_vocabulary_ := some false }

/-- Semantics of exhausting the generator returned by `fit_transform`
(lines 439-470): validate the vocabulary, gather vocabulary and document
frequency (raising on an empty grown vocabulary), and — when no fixed
vocabulary was supplied — resolve the bounds, fail fast if
`max_doc_count < min_doc_count`, prune (which raises `NotImplementedError`
whenever `max_features` is not `None`), then emit one row per instance
against the final vocabulary. -/
def fit_transform_run (v : DocumentCountVectorizer) (corpus : List RawDoc) :
    Except PyErr (DocumentCountVectorizer × List (List (ℤ × ℤ))) :=
  match validate_vocabulary v with
  | .error e => .error e
  | .ok v1 =>
    if v1.fixed_vocabulary_ = some true then
      match v1.vocabulary_ with
      | some voc => .ok (v1, instances v1.separator voc corpus)
      | none => .error (.attributeError "vocabulary_")
    else
      let vocab := corpus_vocab v1.separator corpus
      if vocab = [] then .error (.valueError "empty vocabulary")
      else
        let nDoc := corpus.length
        let maxDocCount := v1.max_df.resolve nDoc
        let minDocCount := v1.min_df.resolve nDoc
        if maxDocCount < minDocCount then
          .error (.valueError "max_df corresponds to < documents than min_df")
        else if v1.max_features.isSome then
          .error (.notImplementedError "vocabulary cannot be limited... yet")
        else
          let pruned := (limit_vocabulary (vocab.map Prod.fst)
            (doc_freq v1.separator corpus) maxDocCount minDocCount).1
          let v2 := { v1 with vocabulary_ := some pruned }
          .ok (v2, instances v2.separator pruned corpus)

/-- `fit` (lines 434-437) calls `self.fit_transform(raw_documents)`, but
`fit_transform` is a generator function (its body contains `yield`), so the
call merely creates a generator object which `fit` discards without ever
iterating it: none of the body runs, nothing is validated or learned, and
`fit` returns `self` unchanged. -/
def fit (v : DocumentCountVectorizer) (_corpus : List RawDoc) :
    DocumentCountVectorizer := v

/-- Semantics of exhausting the generator returned by `transform`
(lines 472-483): if the `vocabulary_` attribute is absent, run
`_validate_vocabulary`; then the guard `if not self.vocabulary_` reads
`self.vocabulary_`, which raises `AttributeError` when the attribute is
still unset (no vocabulary was supplied and none was fitted). -/
def transform_run (v : DocumentCountVectorizer) (corpus : List RawDoc) :
    Except PyErr (List (List (ℤ × ℤ))) :=
  match (if v.vocabulary_.isSome then .ok v else validate_vocabulary v :
      Except PyErr DocumentCountVectorizer) with
  | .error e => .error e
  | .ok v1 =>
    match v1.vocabulary_ with
    | none => .error (.attributeError "vocabulary_")
    | some voc =>
      if voc = [] then .error (.valueError "Empty vocabulary")
      else .ok (instances v1.separator voc corpus)

/-! ### `DocumentLabelExtractor` (`doc_vectorizer.py:11-141`) -/

/-- A labelset: a Python dict from label to id. -/
abbrev LabelSet := List (String × ℕ)

/-- The growable labelset just after `unk_lab_id = labelset[unk_lab]` in
`_learn_labelset` (line 63), before any document is scanned: the
`defaultdict` with `default_factory = labelset.__len__` has assigned id 0
to the unknown label. -/
def empty_labelset (unk : String) : LabelSet :=
  [(unk, 0)]

/-- One step of the growable labelset: `labelset[lab]` inserts a missing
label with the current size as its id. -/
def insert_label (acc : LabelSet) (lab : String) : LabelSet :=
  if (acc.lookup lab).isSome then acc else acc ++ [(lab, acc.length)]

/-- `_learn_labelset` with `fixed_labelset=False` (lines 58-72): reserve
id 0 for the unknown label, then look every label of every document up in
the growable labelset (inserting the unseen ones). -/
def learn_labelset_grow (unk : String) (docLabels : List (List String)) : LabelSet :=
  docLabels.foldl (fun acc doc => doc.foldl insert_label acc) (empty_labelset unk)

/-- `_instance_labels` (lines 34-49): look up the unknown label's id first
(`unk_lab_id = labelset[unk_lab]` raises `KeyError` when absent — `none`
here), then yield one id per label of every document, substituting the
unknown id for labels missing from the labelset. -/
def instance_labels (labelset : LabelSet) (unk : String)
    (docLabels : List (List String)) : Option (List ℕ) :=
  match labelset.lookup unk with
  | none => none
  | some unkId =>
    some ((docLabels.map (fun doc =>
      doc.map (fun lab => (labelset.lookup lab).getD unkId))).flatten)

/-! ## Helper notions and lemmas -/

/-- The keys (synthesized feature names) of an encoded pair list. -/
def names (l : List EncPair) : List String :=
  l.map Prod.fst

/-- Total value carried by the name `k` in a list of encoded pairs. -/
def cnt (l : List EncPair) (k : String) : ℤ :=
  ((l.filter (fun p => p.1 == k)).map Prod.snd).sum

theorem lookup_eq_none_iff {β : Type} (l : List (String × β)) (k : String) :
    l.lookup k = none ↔ k ∉ l.map Prod.fst := by
  induction l with
  | nil => simp
  | cons p l ih =>
    obtain ⟨a, b⟩ := p
    by_cases h : k = a
    · subst h; simp [List.lookup]
    · simp [List.lookup, beq_false_of_ne h, ih, h]

theorem lookup_isSome_iff {β : Type} (l : List (String × β)) (k : String) :
    (l.lookup k).isSome = true ↔ k ∈ l.map Prod.fst := by
  rw [Option.isSome_iff_ne_none]
  simp [lookup_eq_none_iff]

theorem mem_of_lookup_eq_some {β : Type} {l : List (String × β)} {k : String}
    {v : β} (h : l.lookup k = some v) : (k, v) ∈ l := by
  induction l with
  | nil => simp [List.lookup] at h
  | cons p l ih =>
    obtain ⟨a, b⟩ := p
    by_cases hk : k = a
    · subst hk; simp [List.lookup] at h; simp [h]
    · simp [List.lookup, beq_false_of_ne hk] at h
      exact List.mem_cons_of_mem _ (ih h)

theorem cnt_nil (k : String) : cnt [] k = 0 := rfl

theorem cnt_cons (p : EncPair) (l : List EncPair) (k : String) :
    cnt (p :: l) k = (if p.1 = k then p.2 else 0) + cnt l k := by
  by_cases h : p.1 = k <;> simp [cnt, h]

theorem cnt_append (l₁ l₂ : List EncPair) (k : String) :
    cnt (l₁ ++ l₂) k = cnt l₁ k + cnt l₂ k := by
  induction l₁ with
  | nil => simp [cnt_nil, cnt]
  | cons p l ih => simp [cnt_cons, ih, add_assoc]

theorem cnt_eq_zero_of_not_mem {l : List EncPair} {k : String}
    (h : k ∉ names l) : cnt l k = 0 := by
  induction l with
  | nil => rfl
  | cons p l ih =>
    simp only [names, List.map_cons, List.mem_cons] at h
    push_neg at h
    simp [cnt_cons, Ne.symm h.1, ih (by simpa [names] using h.2)]

theorem cnt_of_mem_nodup {m : List EncPair} {p : EncPair}
    (hnd : (names m).Nodup) (hp : p ∈ m) : cnt m p.1 = p.2 := by
  induction m with
  | nil => simp at hp
  | cons q rest ih =>
    have hnd' : q.1 ∉ names rest ∧ (names rest).Nodup := by
      simpa [names] using hnd
    rcases List.mem_cons.mp hp with h | h
    · subst h
      simp [cnt_cons, cnt_eq_zero_of_not_mem hnd'.1]
    · have hne : q.1 ≠ p.1 := by
        intro he
        exact hnd'.1 (he ▸ (List.mem_map.mpr ⟨p, h, rfl⟩))
      simp [cnt_cons, hne, ih hnd'.2 h]

theorem names_add_count (acc : List EncPair) (p : EncPair) :
    names (add_count acc p)
      = if (acc.lookup p.1).isSome then names acc else names acc ++ [p.1] := by
  unfold add_count
  split
  · simp only [names, List.map_map]
    apply List.map_congr_left
    intro q _
    by_cases h : q.1 = p.1 <;> simp [h]
  · simp [names]

theorem nodup_names_add_count {acc : List EncPair} (p : EncPair)
    (h : (names acc).Nodup) : (names (add_count acc p)).Nodup := by
  rw [names_add_count]
  split
  · exact h
  · rename_i hs
    have hnone : acc.lookup p.1 = none := Option.not_isSome_iff_eq_none.mp hs
    have : p.1 ∉ names acc := by
      simpa [names] using (lookup_eq_none_iff acc p.1).mp hnone
    simp [List.nodup_append, h, this]

theorem map_update_eq_self {acc : List EncPair} {p : EncPair}
    (h : p.1 ∉ names acc) :
    acc.map (fun q => if q.1 = p.1 then (q.1, q.2 + p.2) else q) = acc := by
  conv_rhs => rw [← List.map_id acc]
  apply List.map_congr_left
  intro q hq
  have : q.1 ≠ p.1 := by
    intro he
    exact h (he ▸ (List.mem_map.mpr ⟨q, hq, rfl⟩))
  simp [this]

theorem cnt_map_update {acc : List EncPair} (p : EncPair) (k : String)
    (hnd : (names acc).Nodup) (hs : (acc.lookup p.1).isSome) :
    cnt (acc.map (fun q => if q.1 = p.1 then (q.1, q.2 + p.2) else q)) k
      = cnt acc k + (if p.1 = k then p.2 else 0) := by
  induction acc with
  | nil => simp [List.lookup] at hs
  | cons q rest ih =>
    have hnd' : q.1 ∉ names rest ∧ (names rest).Nodup := by
      simpa [names] using hnd
    by_cases hqp : q.1 = p.1
    · have hrest : rest.map (fun q => if q.1 = p.1 then (q.1, q.2 + p.2) else q) = rest :=
        map_update_eq_self (hqp ▸ hnd'.1)
      simp only [List.map_cons, hrest]
      have hhead : (if q.1 = p.1 then (q.1, q.2 + p.2) else q) = (q.1, q.2 + p.2) := by
        simp [hqp]
      rw [hhead, cnt_cons, cnt_cons, ← hqp]
      by_cases hk : q.1 = k
      · simp [hk]
        ring
      · simp [hk]
    · have hs' : (rest.lookup p.1).isSome := by
        have : (p.1 == q.1) = false := beq_false_of_ne (fun he => hqp he.symm)
        simpa [List.lookup, this] using hs
      simp only [List.map_cons]
      have hhead : (if q.1 = p.1 then (q.1, q.2 + p.2) else q) = q := by
        simp [hqp]
      rw [hhead, cnt_cons, cnt_cons, ih hnd'.2 hs']
      ring

theorem cnt_add_count (acc : List EncPair) (p : EncPair) (k : String)
    (hnd : (names acc).Nodup) :
    cnt (add_count acc p) k = cnt acc k + (if p.1 = k then p.2 else 0) := by
  unfold add_count
  split
  · exact cnt_map_update p k hnd (by assumption)
  · simp [cnt_append, cnt_cons, cnt_nil]

theorem mem_names_add_count (acc : List EncPair) (p : EncPair) (k : String) :
    k ∈ names (add_count acc p) ↔ k ∈ names acc ∨ k = p.1 := by
  rw [names_add_count]
  split
  · rename_i hs
    have hmem : p.1 ∈ names acc := by
      have := (lookup_isSome_iff acc p.1).mp hs
      simpa [names] using this
    constructor
    · exact Or.inl
    · rintro (h | rfl)
      · exact h
      · exact hmem
  · simp

theorem foldl_add_count_nodup (l : List EncPair) (acc : List EncPair)
    (h : (names acc).Nodup) : (names (l.foldl add_count acc)).Nodup := by
  induction l generalizing acc with
  | nil => simpa using h
  | cons p l ih => exact ih _ (nodup_names_add_count p h)

theorem foldl_add_count_cnt (l : List EncPair) (acc : List EncPair) (k : String)
    (h : (names acc).Nodup) :
    cnt (l.foldl add_count acc) k = cnt acc k + cnt l k := by
  induction l generalizing acc with
  | nil => simp [cnt_nil]
  | cons p l ih =>
    rw [List.foldl_cons, ih _ (nodup_names_add_count p h),
      cnt_add_count acc p k h, cnt_cons]
    ring

theorem foldl_add_count_mem (l : List EncPair) (acc : List EncPair) (k : String)
    (h : (names acc).Nodup) :
    k ∈ names (l.foldl add_count acc) ↔ k ∈ names acc ∨ k ∈ names l := by
  induction l generalizing acc with
  | nil => simp [names]
  | cons p l ih =>
    rw [List.foldl_cons, ih _ (nodup_names_add_count p h),
      mem_names_add_count]
    simp only [names, List.map_cons, List.mem_cons]
    tauto

theorem counter_merge_nodup (l : List EncPair) :
    (names (counter_merge l)).Nodup :=
  foldl_add_count_nodup l [] (by simp [names])

theorem counter_merge_cnt (l : List EncPair) (k : String) :
    cnt (counter_merge l) k = cnt l k := by
  rw [counter_merge, foldl_add_count_cnt l [] k (by simp [names]), cnt_nil]
  ring

theorem counter_merge_mem (l : List EncPair) (k : String) :
    k ∈ names (counter_merge l) ↔ k ∈ names l := by
  rw [counter_merge, foldl_add_count_mem l [] k (by simp [names])]
  simp [names]

theorem counter_merge_val {l : List EncPair} {p : EncPair}
    (hp : p ∈ counter_merge l) : p.2 = cnt l p.1 := by
  rw [← counter_merge_cnt l p.1]
  exact (cnt_of_mem_nodup (counter_merge_nodup l) hp).symm

theorem mem_instance_row {voc : Vocab} {fv : List EncPair} {q : ℤ × ℤ}
    (hq : q ∈ instance_row voc fv) : ∃ f, voc.lookup f = some q.1 := by
  unfold instance_row at hq
  obtain ⟨p, hp, hpq⟩ := List.mem_map.mp hq
  have hinc : include_feature voc p = true := (List.mem_filter.mp hp).2
  unfold include_feature at hinc
  obtain ⟨i, hi⟩ := Option.isSome_iff_exists.mp hinc
  refine ⟨p.1, ?_⟩
  rw [hi]
  rw [← hpq]
  simp [hi]

theorem mem_kg_row {voc : Vocab} {vec : List EncPair} {q : ℤ × ℤ}
    (hq : q ∈ kg_row voc vec) : ∃ f, voc.lookup f = some q.1 := by
  unfold kg_row at hq
  obtain ⟨p, _, hpq⟩ := List.mem_filterMap.mp hq
  refine ⟨p.1, ?_⟩
  rcases hl : voc.lookup p.1 with _ | i
  · rw [hl] at hpq; simp at hpq
  · rw [hl] at hpq
    have h2 := Option.some.inj hpq
    rw [← h2]

theorem kg_row_length (voc : Vocab) (vec : List EncPair) :
    (kg_row voc vec).length = vec.countP (include_feature voc) := by
  unfold kg_row
  induction vec with
  | nil => rfl
  | cons p vec ih =>
    rw [List.filterMap_cons, List.countP_cons]
    rcases hl : voc.lookup p.1 with _ | i <;>
      simp [include_feature, hl, ih]

/-- **C3.**  Under a frozen vocabulary, `transform` (via `_instances`) never
emits a (feature id, value) pair whose id is not an id of the vocabulary,
and a feature name absent from the vocabulary never causes a failure: the
feature is simply omitted, the row consisting of exactly one pair per
in-vocabulary feature.  The same holds of the fixed-vocabulary row
construction in `KeyGroupVectorizer._count_vocab`. -/
theorem transform_stays_in_vocabulary (sep : String) (voc : Vocab)
    (corpus : List RawDoc) (fv vec : List EncPair) :
    (∀ row ∈ instances sep voc corpus, ∀ q ∈ row, ∃ f, voc.lookup f = some q.1)
    ∧ (∀ q ∈ instance_row voc fv, ∃ f, voc.lookup f = some q.1)
    ∧ instance_row voc fv = instance_row voc (fv.filter (include_feature voc))
    ∧ (instance_row voc fv).length = fv.countP (include_feature voc)
    ∧ (∀ q ∈ kg_row voc vec, ∃ f, voc.lookup f = some q.1)
    ∧ (kg_row voc vec).length = vec.countP (include_feature voc) := by
  refine ⟨?_, fun q hq => mem_instance_row hq, ?_, ?_,
    fun q hq => mem_kg_row hq, kg_row_length voc vec⟩
  · intro row hrow q hq
    unfold instances at hrow
    obtain ⟨rows, hrows, hrow'⟩ := List.mem_flatten.mp hrow
    obtain ⟨doc, _, hdoc⟩ := List.mem_map.mp hrows
    rw [← hdoc] at hrow'
    obtain ⟨fv', _, hfv'⟩ := List.mem_map.mp hrow'
    rw [← hfv'] at hq
    exact mem_instance_row hq
  · simp [instance_row, List.filter_filter]
  · simp [instance_row, List.countP_eq_length_filter]

/-- Witness for C3 at a concrete row: the emitted id 7 is the id of a
vocabulary entry. -/
theorem transform_stays_in_vocabulary_witness :
    ∃ f, (([(("a" : String), (7 : ℤ))] : Vocab).lookup f)
      = some (((7 : ℤ), (3 : ℤ))).1 :=
  (transform_stays_in_vocabulary "=" [("a", 7)] [] [("a", 3)] []).2.1
    ((7 : ℤ), (3 : ℤ)) (by decide)

/-- **C2.**  Per-pair encoding maps a numeric pair to itself, and a string-
or tuple-valued pair `(name, v)` to `(name ++ separator ++ str v, 1)` (with
the string value first normalized by `fold_nbsp`, see `one_hot_pair`);
the subsequent `Counter` merge leaves at most one entry per synthesized
name, carrying the sum of the individual values, with exactly the
synthesized names of the instance. -/
theorem one_hot_encode_and_merge (sep : String) (feats : List (String × FV))
    (f s t : String) (z : ℤ) :
    one_hot_pair sep (f, FV.num z) = (f, z)
    ∧ one_hot_pair sep (f, FV.str s) = (f ++ sep ++ fold_nbsp s, 1)
    ∧ one_hot_pair sep (f, FV.tup t) = (f ++ sep ++ t, 1)
    ∧ (names (encode_instance sep feats)).Nodup
    ∧ (∀ p ∈ encode_instance sep feats,
        p.2 = cnt (feats.map (one_hot_pair sep)) p.1)
    ∧ (∀ k, k ∈ names (encode_instance sep feats)
        ↔ k ∈ names (feats.map (one_hot_pair sep))) := by
  refine ⟨rfl, rfl, rfl, counter_merge_nodup _, ?_, ?_⟩
  · intro p hp
    exact counter_merge_val hp
  · intro k
    exact counter_merge_mem _ k

/-- Witness for C2 at a concrete instance: the repeated categorical
observation `("pos", "NN")` contributes a count of 2 in the merged vector. -/
theorem one_hot_encode_and_merge_witness :
    ("pos=NN", (2 : ℤ)).2
      = cnt ([(("pos" : String), FV.str "NN"), ("pos", FV.str "NN"),
          ("len", FV.num 3)].map (one_hot_pair "=")) ("pos=NN", (2 : ℤ)).1 :=
  (one_hot_encode_and_merge "=" [("pos", FV.str "NN"), ("pos", FV.str "NN"),
      ("len", FV.num 3)] "" "" "" 0).2.2.2.2.1
    ("pos=NN", (2 : ℤ)) (by decide)

/-- The tail of the `row_ptr` offsets produced for `rows`, starting from a
buffer already `n` entries long. -/
def row_ptr_tail (n : ℕ) : List (List (ℤ × ℤ)) → List ℕ
  | [] => []
  | r :: rs => (n + r.length) :: row_ptr_tail (n + r.length) rs

theorem kg_foldl_char (voc : Vocab) (vectors : List (List EncPair))
    (acc0 : List (ℤ × ℤ)) (ptrs0 : List ℕ) :
    vectors.foldl
        (fun st vec =>
          let acc := st.1 ++ kg_row voc vec
          (acc, st.2 ++ [acc.length]))
        (acc0, ptrs0)
      = (acc0 ++ (vectors.map (kg_row voc)).flatten,
         ptrs0 ++ row_ptr_tail acc0.length (vectors.map (kg_row voc))) := by
  induction vectors generalizing acc0 ptrs0 with
  | nil => simp [row_ptr_tail]
  | cons v vs ih =>
    rw [List.foldl_cons]
    dsimp only
    rw [ih]
    simp [row_ptr_tail, List.append_assoc]

theorem kg_accum_char (voc : Vocab) (vectors : List (List EncPair)) :
    kg_accum voc vectors
      = ((vectors.map (kg_row voc)).flatten,
         0 :: row_ptr_tail 0 (vectors.map (kg_row voc))) := by
  unfold kg_accum
  rw [kg_foldl_char]
  simp

theorem slice_flatten (rows : List (List (ℤ × ℤ))) :
    ∀ (n : ℕ) (l : List (ℤ × ℤ)), l.length = n →
    ((n :: row_ptr_tail n rows).zip (row_ptr_tail n rows)).map
        (fun p => ((l ++ rows.flatten).drop p.1).take (p.2 - p.1))
      = rows := by
  induction rows with
  | nil =>
    intro n l _
    simp [row_ptr_tail]
  | cons r rs ih =>
    intro n l hl
    have hfl : l ++ (r :: rs).flatten = (l ++ r) ++ rs.flatten := by
      simp [List.append_assoc]
    rw [row_ptr_tail, List.zip_cons_cons, List.map_cons, hfl]
    have hslice : (((l ++ r) ++ rs.flatten).drop n).take (n + r.length - n) = r := by
      rw [Nat.add_sub_cancel_left, List.append_assoc, ← hl, List.drop_left,
        List.take_left]
    rw [hslice]
    have hlen : (l ++ r).length = n + r.length := by
      simp [hl]
    rw [ih (n + r.length) (l ++ r) hlen]

theorem count_vocab_fixed_char (voc : Vocab) (vectors : List (List EncPair)) :
    count_vocab_fixed voc vectors = vectors.map (kg_row voc) := by
  unfold count_vocab_fixed
  rw [kg_accum_char]
  have := slice_flatten (vectors.map (kg_row voc)) 0 [] rfl
  simpa using this

/-- **C10.**  Each `transform`/`fit_transform` pass yields exactly one
sparse row per generated instance, in instance-generation order (document
order, then instance order within a document): `_instances` is the
per-instance row map over the flattened corpus, and the
`feature_acc`/`row_ptr` slicing of `KeyGroupVectorizer._count_vocab`
reconstructs exactly the per-vector rows.  An instance with no
in-vocabulary feature yields an empty row, never a missing one. -/
theorem one_row_per_instance (sep : String) (voc : Vocab)
    (corpus : List RawDoc) (vectors : List (List EncPair)) (fv : List EncPair) :
    instances sep voc corpus
      = ((corpus.map (extract_feature_vectors sep)).flatten).map (instance_row voc)
    ∧ (instances sep voc corpus).length = (corpus.map (fun d => d.length)).sum
    ∧ count_vocab_fixed voc vectors = vectors.map (kg_row voc)
    ∧ (count_vocab_fixed voc vectors).length = vectors.length
    ∧ ((∀ p ∈ fv, voc.lookup p.1 = none) → instance_row voc fv = []) := by
  have hmap : instances sep voc corpus
      = ((corpus.map (extract_feature_vectors sep)).flatten).map (instance_row voc) := by
    unfold instances
    rw [List.map_flatten, List.map_map]
    rfl
  refine ⟨hmap, ?_, count_vocab_fixed_char voc vectors, ?_, ?_⟩
  · rw [hmap]
    simp [List.length_flatten, List.map_map, Function.comp_def,
      extract_feature_vectors]
  · rw [count_vocab_fixed_char]
    simp
  · intro h
    unfold instance_row
    have : fv.filter (include_feature voc) = [] := by
      rw [List.filter_eq_nil_iff]
      intro p hp
      simp [include_feature, h p hp]
    rw [this]
    rfl

/-- Witness for C10: a concrete instance whose only feature is absent from
the vocabulary yields the empty row. -/
theorem one_row_per_instance_witness :
    instance_row [(("a" : String), (0 : ℤ))] [(("x" : String), (1 : ℤ))] = [] :=
  (one_row_per_instance "=" [("a", 0)] [] [] [("x", 1)]).2.2.2.2
    (by decide)

/-! ### Correctness of `_limit_vocabulary` -/

/-- Fused single-pass form of `_limit_vocabulary`, used to reason about the
staged mask/cumsum/partition computation by induction; `prev` is the running
`prev_idx` of the cumulative sum. -/
def prune_aux (df : String → ℕ) (high low : ℚ) : ℤ → List String →
    List (String × ℤ) × List String
  | _, [] => ([], [])
  | prev, f :: fs =>
    let m := keep_feat df high low f
    let nxt := prev + (if m then 1 else 0)
    let r := prune_aux df high low nxt fs
    if m then ((f, nxt) :: r.1, r.2) else (r.1, f :: r.2)

theorem df_mask_cons (df : String → ℕ) (high low : ℚ) (f : String)
    (fs : List String) :
    df_mask df high low (f :: fs)
      = keep_feat df high low f :: df_mask df high low fs := by
  simp [df_mask, keep_feat]

theorem limit_aux_eq (df : String → ℕ) (high low : ℚ) :
    ∀ (vocab : List String) (prev : ℤ),
    (((vocab.zip (df_mask df high low vocab)).zip
          (new_indices_from prev (df_mask df high low vocab))).filterMap
        (fun t => if t.1.2 then some (t.1.1, t.2) else none)
      = (prune_aux df high low prev vocab).1)
    ∧ (((vocab.zip (df_mask df high low vocab)).zip
          (new_indices_from prev (df_mask df high low vocab))).filterMap
        (fun t => if t.1.2 then none else some t.1.1)
      = (prune_aux df high low prev vocab).2) := by
  intro vocab
  induction vocab with
  | nil => intro prev; simp [df_mask, new_indices_from, prune_aux]
  | cons f fs ih =>
    intro prev
    rw [df_mask_cons]
    cases hm : keep_feat df high low f
    · constructor
      · have h := (ih prev).1
        simpa [new_indices_from, prune_aux, hm] using h
      · have h := (ih prev).2
        simpa [new_indices_from, prune_aux, hm] using h
    · constructor
      · have h := (ih (prev + 1)).1
        simpa [new_indices_from, prune_aux, hm] using h
      · have h := (ih (prev + 1)).2
        simpa [new_indices_from, prune_aux, hm] using h

theorem limit_eq_prune (vocab : List String) (df : String → ℕ)
    (high low : ℚ) :
    limit_vocabulary vocab df high low = prune_aux df high low (-1) vocab := by
  have h := limit_aux_eq df high low vocab (-1)
  dsimp only [limit_vocabulary]
  exact Prod.ext_iff.mpr ⟨h.1, h.2⟩

theorem prune_aux_removed (df : String → ℕ) (high low : ℚ) :
    ∀ (vocab : List String) (prev : ℤ),
    (prune_aux df high low prev vocab).2
      = vocab.filter (fun f => !(keep_feat df high low f)) := by
  intro vocab
  induction vocab with
  | nil => intro prev; simp [prune_aux]
  | cons f fs ih =>
    intro prev
    cases hm : keep_feat df high low f <;>
      simp [prune_aux, hm, ih]

theorem prune_aux_names (df : String → ℕ) (high low : ℚ) :
    ∀ (vocab : List String) (prev : ℤ),
    (prune_aux df high low prev vocab).1.map Prod.fst
      = vocab.filter (keep_feat df high low) := by
  intro vocab
  induction vocab with
  | nil => intro prev; simp [prune_aux]
  | cons f fs ih =>
    intro prev
    cases hm : keep_feat df high low f <;>
      simp [prune_aux, hm, ih]

theorem prune_aux_ids (df : String → ℕ) (high low : ℚ) :
    ∀ (vocab : List String) (prev : ℤ),
    (prune_aux df high low prev vocab).1.map Prod.snd
      = (List.range (vocab.countP (keep_feat df high low))).map
          (fun (i : ℕ) => prev + 1 + (i : ℤ)) := by
  intro vocab
  induction vocab with
  | nil => intro prev; simp [prune_aux]
  | cons f fs ih =>
    intro prev
    cases hm : keep_feat df high low f
    · rw [List.countP_cons_of_neg _ _ (by simp [hm])]
      simpa [prune_aux, hm] using ih prev
    · rw [List.countP_cons_of_pos _ _ (by simp [hm])]
      rw [List.range_succ_eq_map, List.map_cons, List.map_map]
      have h := ih (prev + 1)
      simp only [prune_aux, hm, if_pos, List.map_cons]
      simp only [h]
      congr 1
      · simp
      · apply List.map_congr_left
        intro i _
        simp only [Function.comp_apply]
        push_cast
        ring

theorem prune_aux_prefix_sum (df : String → ℕ) (high low : ℚ) :
    ∀ (vocab : List String) (prev : ℤ) (i : ℕ) (h : i < vocab.length),
    keep_feat df high low (vocab.get ⟨i, h⟩) →
    (vocab.get ⟨i, h⟩,
        prev + ((vocab.take (i + 1)).countP (keep_feat df high low) : ℤ))
      ∈ (prune_aux df high low prev vocab).1 := by
  intro vocab
  induction vocab with
  | nil => intro prev i h; simp at h
  | cons f fs ih =>
    intro prev i h hkeep
    cases i with
    | zero =>
      simp only [List.get] at hkeep ⊢
      rw [List.take_succ_cons, List.take_zero,
        List.countP_cons_of_pos _ _ (by simp [hkeep])]
      simp [prune_aux, hkeep]
    | succ j =>
      simp only [List.get] at hkeep ⊢
      have hj : j < fs.length := Nat.lt_of_succ_lt_succ h
      rw [List.take_succ_cons]
      cases hm : keep_feat df high low f
      · rw [List.countP_cons_of_neg _ _ (by simp [hm])]
        have := ih prev j hj hkeep
        simpa [prune_aux, hm] using this
      · rw [List.countP_cons_of_pos _ _ (by simp [hm])]
        have := ih (prev + 1) j hj hkeep
        simp only [prune_aux, hm, if_pos]
        apply List.mem_cons_of_mem
        have harith : prev + ((fs.take (j + 1)).countP (keep_feat df high low) + 1 : ℤ)
            = prev + 1 + ((fs.take (j + 1)).countP (keep_feat df high low) : ℤ) := by
          ring
        rw [show (((fs.take (j + 1)).countP (keep_feat df high low) + 1 : ℕ) : ℤ)
            = ((fs.take (j + 1)).countP (keep_feat df high low) + 1 : ℤ) by push_cast; ring]
        rw [harith]
        exact this

/-- **C1.**  `_limit_vocabulary`, run with resolved bounds
`low = min_doc_count` and `high = max_doc_count` over a vocabulary whose
ids are contiguous over `[0, n)` (represented by its id-ordered name list):
it removes exactly the features whose document frequency falls outside the
inclusive interval `[low, high]`; the surviving features keep their
relative order and receive contiguous new ids `0, 1, …` (first component),
each survivor's new id being the number of surviving features of original
id ≤ its own, minus one (the prefix sum of the inclusion mask); and the
call returns the remapped vocabulary together with the removed names. -/
theorem limit_vocabulary_correct (vocab : List String) (df : String → ℕ)
    (high low : ℚ) :
    (∀ f, f ∈ (limit_vocabulary vocab df high low).2
        ↔ f ∈ vocab ∧ ((df f : ℚ) < low ∨ high < (df f : ℚ)))
    ∧ (limit_vocabulary vocab df high low).1.map Prod.fst
        = vocab.filter (keep_feat df high low)
    ∧ (limit_vocabulary vocab df high low).1.map Prod.snd
        = (List.range (vocab.countP (keep_feat df high low))).map
            (fun (i : ℕ) => (i : ℤ))
    ∧ (∀ i (h : i < vocab.length),
        keep_feat df high low (vocab.get ⟨i, h⟩) →
        (vocab.get ⟨i, h⟩,
            ((vocab.take (i + 1)).countP (keep_feat df high low) : ℤ) - 1)
          ∈ (limit_vocabulary vocab df high low).1) := by
  rw [limit_eq_prune]
  refine ⟨?_, prune_aux_names df high low vocab (-1), ?_, ?_⟩
  · intro f
    rw [prune_aux_removed df high low vocab (-1), List.mem_filter]
    constructor
    · rintro ⟨hmem, hk⟩
      refine ⟨hmem, ?_⟩
      simp only [keep_feat, Bool.not_eq_true', Bool.and_eq_false_iff,
        decide_eq_false_iff_not, not_le] at hk
      tauto
    · rintro ⟨hmem, hk⟩
      refine ⟨hmem, ?_⟩
      simp only [keep_feat, Bool.not_eq_true', Bool.and_eq_false_iff,
        decide_eq_false_iff_not, not_le]
      tauto
  · rw [prune_aux_ids df high low vocab (-1)]
    apply List.map_congr_left
    intro i _
    ring
  · intro i h hkeep
    have := prune_aux_prefix_sum df high low vocab (-1) i h hkeep
    have harith : (-1 : ℤ) + ((vocab.take (i + 1)).countP (keep_feat df high low) : ℤ)
        = ((vocab.take (i + 1)).countP (keep_feat df high low) : ℤ) - 1 := by
      ring
    rwa [harith] at this

/-- Concrete document-frequency table used by the C1 witness. -/
def df_demo : String → ℕ :=
  fun f => if f = "a" then 1 else if f = "b" then 3 else 2

/-- Witness for C1: with `low = 2`, `high = 3` and frequencies
`a ↦ 1, b ↦ 3, c ↦ 2`, feature `c` (original id 2) survives and is
remapped to id `2 - 1 = 1`. -/
theorem limit_vocabulary_correct_witness :
    (("c" : String),
        (((["a", "b", "c"].take 3).countP (keep_feat df_demo 3 2) : ℤ) - 1))
      ∈ (limit_vocabulary ["a", "b", "c"] df_demo 3 2).1 := by
  have h := (limit_vocabulary_correct ["a", "b", "c"] df_demo 3 2).2.2.2
    2 (by decide) (by decide)
  simpa using h

/-! ### Whitespace folding (C9) -/

/-- The narrow no-break space `u' '`, a non-ASCII non-breaking
whitespace variant distinct from `u'\xa0'`. -/
def nnbsp : Char := Char.ofNat 0x202F

/-- **C9 counterexample.**  The source folds only `u'\xa0'`: two values
that differ only in a narrow no-break space (`u' '`, itself a
non-breaking space variant) versus a plain space synthesize *different*
one-hot feature names, contradicting the claim that similar non-ASCII
whitespace variants are folded before encoding. -/
theorem fold_whitespace_cex :
    (one_hot_pair "=" ("f", FV.str (String.mk [nnbsp]))).1
      ≠ (one_hot_pair "=" ("f", FV.str " ")).1
    ∧ fold_nbsp (String.mk [nnbsp]) ≠ " " := by
  constructor <;> decide

/-- **C9 (amended).**  Before one-hot encoding, a string value has exactly
the non-breaking space `u'\xa0'` folded to a plain space: two values equal
after that folding synthesize the same one-hot name, a value containing no
`u'\xa0'` is left unchanged, and `u'\xa0'` itself maps to `' '`. -/
theorem fold_nbsp_amended (sep f s t : String) :
    one_hot_pair sep (f, FV.str s) = (f ++ sep ++ fold_nbsp s, 1)
    ∧ (fold_nbsp s = fold_nbsp t →
        one_hot_pair sep (f, FV.str s) = one_hot_pair sep (f, FV.str t))
    ∧ (nbsp ∉ s.toList → fold_nbsp s = s)
    ∧ fold_nbsp (String.mk [nbsp]) = " " := by
  refine ⟨rfl, ?_, ?_, by decide⟩
  · intro h
    simp [one_hot_pair, h]
  · intro h
    unfold fold_nbsp
    have hmap : s.toList.map (fun c => if c = nbsp then ' ' else c) = s.toList := by
      conv_rhs => rw [← List.map_id s.toList]
      apply List.map_congr_left
      intro c hc
      have : c ≠ nbsp := fun he => h (he ▸ hc)
      simp [this]
    rw [hmap]
    cases s
    rfl

/-- Witness for C9 (amended): a value containing `u'\xa0'` and its
plain-space variant synthesize the same one-hot feature. -/
theorem fold_nbsp_amended_witness :
    one_hot_pair "=" ("f", FV.str (String.mk ['a', nbsp, 'b']))
      = one_hot_pair "=" ("f", FV.str "a b") :=
  (fold_nbsp_amended "=" "f" (String.mk ['a', nbsp, 'b']) "a b").2.1 (by decide)

/-! ### Label encoder (C4) -/

theorem lookup_append_of_some {β : Type} {l₁ : List (String × β)}
    (l₂ : List (String × β)) {k : String} {v : β}
    (h : l₁.lookup k = some v) : (l₁ ++ l₂).lookup k = some v := by
  induction l₁ with
  | nil => simp [List.lookup] at h
  | cons p l ih =>
    obtain ⟨a, b⟩ := p
    by_cases hk : k = a
    · subst hk
      simp [List.lookup] at h ⊢
      exact h
    · simp [List.lookup, beq_false_of_ne hk] at h ⊢
      exact ih h

theorem insert_label_preserves {acc : LabelSet} {k : String} {v : ℕ}
    (lab : String) (h : acc.lookup k = some v) :
    (insert_label acc lab).lookup k = some v := by
  unfold insert_label
  split
  · exact h
  · exact lookup_append_of_some _ h

theorem foldl_insert_label_preserves (labs : List String) {acc : LabelSet}
    {k : String} {v : ℕ} (h : acc.lookup k = some v) :
    (labs.foldl insert_label acc).lookup k = some v := by
  induction labs generalizing acc with
  | nil => exact h
  | cons lab labs ih => exact ih (insert_label_preserves lab h)

/-- **C4.**  The label encoder reserves id 0 for the unknown-label sentinel
before scanning any document, and growing never displaces it; under a
frozen labelset containing the sentinel, `_instance_labels` succeeds on
every document, yielding exactly one label id per instance in generation
order, with labels absent from the labelset mapped to the unknown id
rather than dropped. -/
theorem labelset_unknown_handling (unk : String) (docs : List (List String))
    (labelset : LabelSet) (uid : ℕ) :
    (empty_labelset unk).lookup unk = some 0
    ∧ (learn_labelset_grow unk docs).lookup unk = some 0
    ∧ (labelset.lookup unk = some uid →
        instance_labels labelset unk docs
          = some ((docs.flatten).map
              (fun lab => (labelset.lookup lab).getD uid)))
    ∧ (labelset.lookup unk = some uid →
        ∃ L, instance_labels labelset unk docs = some L
          ∧ L.length = (docs.map (fun d => d.length)).sum)
    ∧ (∀ lab, labelset.lookup lab = none →
        (labelset.lookup lab).getD uid = uid) := by
  have hempty : (empty_labelset unk).lookup unk = some 0 := by
    simp [empty_labelset, List.lookup]
  have hlabels : labelset.lookup unk = some uid →
      instance_labels labelset unk docs
        = some ((docs.flatten).map (fun lab => (labelset.lookup lab).getD uid)) := by
    intro h
    unfold instance_labels
    rw [h]
    rw [List.map_flatten]
  have hgrow : ∀ (ds : List (List String)) (acc : LabelSet) (k : String) (v : ℕ),
      acc.lookup k = some v →
      (ds.foldl (fun acc doc => doc.foldl insert_label acc) acc).lookup k = some v := by
    intro ds
    induction ds with
    | nil => intro acc k v h; exact h
    | cons doc ds ih =>
      intro acc k v h
      exact ih _ _ _ (foldl_insert_label_preserves doc h)
  refine ⟨hempty, hgrow docs _ unk 0 hempty, hlabels, ?_, ?_⟩
  · intro h
    refine ⟨_, hlabels h, ?_⟩
    simp [List.length_flatten, List.map_map, Function.comp_def]
  · intro lab h
    rw [h]
    rfl

/-- Witness for C4: under the frozen labelset `{__UNK__: 0, A: 1}`, the
document `["A", "B"]` yields exactly the ids `[1, 0]`, the unseen label
`"B"` mapping to the unknown id. -/
theorem labelset_unknown_handling_witness :
    instance_labels [("__UNK__", 0), ("A", 1)] "__UNK__" [["A", "B"]]
      = some (([["A", "B"]].flatten).map
          (fun lab => (([(("__UNK__" : String), (0 : ℕ)), ("A", 1)].lookup lab).getD 0))) :=
  (labelset_unknown_handling "__UNK__" [["A", "B"]] [("__UNK__", 0), ("A", 1)] 0).2.2.1
    (by decide)

/-! ### Corpus-level error behavior (C5–C8) -/

/-- A vectorizer as constructed by
`DocumentCountVectorizer(instance_generator, feature_set)` with all
defaults: `max_df=1.0` (float), `min_df=1` (int), `max_features=None`,
`vocabulary=None`; no attribute set yet. -/
def v_fresh : DocumentCountVectorizer :=
  ⟨.float 1, .int 1, none, none, "=", none, none⟩

/-- A vectorizer configured with `max_df=1, min_df=2` (resolved bounds
`1 < 2`), no fixed vocabulary. -/
def v_bad : DocumentCountVectorizer :=
  ⟨.int 1, .int 2, none, none, "=", none, none⟩

/-- A vectorizer configured with `max_df=5, min_df=1` and
`max_features=3`, no fixed vocabulary. -/
def v_mf : DocumentCountVectorizer :=
  ⟨.int 5, .int 1, some (.int 3), none, "=", none, none⟩

/-- A vectorizer configured with `max_df=1, min_df=2` (resolved bounds
`1 < 2`) and `max_features=3`, no fixed vocabulary. -/
def v_mf_bad : DocumentCountVectorizer :=
  ⟨.int 1, .int 2, some (.int 3), none, "=", none, none⟩

/-- Unfolding of `fit_transform_run` when no vocabulary was supplied
(`fixed_vocabulary_` becomes `False`): empty-vocabulary check, then
threshold check, then the `max_features` check inside
`_limit_vocabulary`, then pruning and row emission. -/
theorem fit_transform_run_grow (v : DocumentCountVectorizer)
    (corpus : List RawDoc) (hvoc : v.vocabulary = none) :
    fit_transform_run v corpus =
      (if corpus_vocab v.separator corpus = [] then
        .error (.valueError "empty vocabulary")
      else if v.max_df.resolve corpus.length < v.min_df.resolve corpus.length then
        .error (.valueError "max_df corresponds to < documents than min_df")
      else if v.max_features.isSome then
        .error (.notImplementedError "vocabulary cannot be limited... yet")
      else
        let pruned := (limit_vocabulary ((corpus_vocab v.separator corpus).map Prod.fst)
          (doc_freq v.separator corpus)
          (v.max_df.resolve corpus.length) (v.min_df.resolve corpus.length)).1
        .ok ({ v with fixed_vocabulary_ := some false, vocabulary_ := some pruned },
          instances v.separator pruned corpus)) := by
  unfold fit_transform_run validate_vocabulary
  rw [hvoc]
  rfl

/-- **C5 counterexample.**  A `fit_transform` run without a fixed
vocabulary whose resolved `max_df` (1) is smaller than its resolved
`min_df` (2), on the empty corpus: the run fails with the
empty-vocabulary error — the document-frequency pass and its emptiness
check come *before* the threshold comparison — not with the invalid-
threshold error the claim promises for every such call. -/
theorem invalid_threshold_cex :
    v_bad.max_df.resolve ([] : List RawDoc).length
        < v_bad.min_df.resolve ([] : List RawDoc).length
    ∧ fit_transform_run v_bad [] = .error (.valueError "empty vocabulary")
    ∧ fit_transform_run v_bad []
        ≠ .error (.valueError "max_df corresponds to < documents than min_df") := by
  refine ⟨by decide, by rfl, ?_⟩
  rw [fit_transform_run_grow v_bad [] rfl]
  simp [corpus_vocab]

/-- **C5 (amended).**  A negative `max_df` or `min_df` is rejected with
the invalid-threshold error at construction; and every `fit_transform`
run without a fixed vocabulary *whose corpus yields at least one
feature* fails with the invalid-threshold error as soon as the resolved
maximum document count is below the resolved minimum — before any row is
emitted.  (On a zero-feature corpus the empty-vocabulary error fires
first.) -/
theorem invalid_threshold_amended (max_df min_df : Thresh)
    (mf : Option Thresh) (voc : Option Vocab) (sep : String)
    (v : DocumentCountVectorizer) (corpus : List RawDoc) :
    (max_df.val < 0 ∨ min_df.val < 0 →
      mk_vectorizer max_df min_df mf voc sep
        = .error (.valueError "negative value for max_df of min_df"))
    ∧ (v.vocabulary = none →
        corpus_vocab v.separator corpus ≠ [] →
        v.max_df.resolve corpus.length < v.min_df.resolve corpus.length →
        fit_transform_run v corpus
          = .error (.valueError "max_df corresponds to < documents than min_df")) := by
  constructor
  · intro h
    unfold mk_vectorizer
    rw [if_pos h]
  · intro hvoc hne hlt
    rw [fit_transform_run_grow v corpus hvoc, if_neg hne, if_pos hlt]

/-- Witness for C5 (amended): a negative `min_df` is rejected at
construction, and `max_df=1 < min_df=2` on a one-document corpus with one
feature fails with the invalid-threshold error. -/
theorem invalid_threshold_amended_witness :
    mk_vectorizer (.int 1) (.int (-1)) none none "="
        = .error (.valueError "negative value for max_df of min_df")
    ∧ fit_transform_run v_bad [[[("a", FV.num 1)]]]
        = .error (.valueError "max_df corresponds to < documents than min_df") := by
  constructor
  · exact (invalid_threshold_amended (.int 1) (.int (-1)) none none "=" v_bad []).1
      (by decide)
  · exact (invalid_threshold_amended (.int 1) (.int 2) none none "=" v_bad
      [[[("a", FV.num 1)]]]).2 (by decide) (by decide) (by decide)

/-- **C6.**  `transform` on a vectorizer with no previously produced and
no pre-supplied vocabulary does *not* fail with the empty-vocabulary
error: `_validate_vocabulary` leaves `vocabulary_` unset when
`vocabulary` is `None`, so the guard `if not self.vocabulary_` itself
raises `AttributeError` before the `ValueError('Empty vocabulary')`
branch can be reached. -/
theorem transform_unfitted_attribute_error (corpus : List RawDoc) :
    transform_run v_fresh corpus = .error (.attributeError "vocabulary_")
    ∧ transform_run v_fresh corpus ≠ .error (.valueError "Empty vocabulary") := by
  constructor
  · rfl
  · intro h
    rw [show transform_run v_fresh corpus = .error (.attributeError "vocabulary_")
      from rfl] at h
    simp at h

/-- **C7.**  A corpus from which zero features are extracted (the empty
corpus, or a document with featureless instances) makes a consumed
`fit_transform` generator raise the empty-vocabulary error rather than
freeze an empty vocabulary — but `fit` itself discards the generator it
creates without iterating it, so `fit` raises nothing and learns
nothing, returning `self` with `vocabulary_` still unset. -/
theorem empty_corpus_fit_behavior (corpus : List RawDoc) :
    fit v_fresh corpus = v_fresh
    ∧ (fit v_fresh corpus).vocabulary_ = none
    ∧ fit_transform_run v_fresh [] = .error (.valueError "empty vocabulary")
    ∧ fit_transform_run v_fresh [[[]]] = .error (.valueError "empty vocabulary") := by
  exact ⟨rfl, rfl, rfl, rfl⟩

/-- **C8 counterexample.**  A positive integral cap (`max_features=3`,
no fixed vocabulary) does not make every `fit`/`fit_transform` call fail
with `NotImplementedError`: on the empty corpus the run fails with the
empty-vocabulary error (line 359), with resolved `max_df=1 < min_df=2`
it fails with the threshold error (line 458) — both checks run before
`_limit_vocabulary`'s `NotImplementedError` (line 387) — and `fit`,
which discards the generator it creates, does not fail at all. -/
theorem max_features_preempted_cex :
    fit_transform_run v_mf [] = .error (.valueError "empty vocabulary")
    ∧ fit_transform_run v_mf []
        ≠ .error (.notImplementedError "vocabulary cannot be limited... yet")
    ∧ fit_transform_run v_mf_bad [[[("a", FV.num 1)]]]
        = .error (.valueError "max_df corresponds to < documents than min_df")
    ∧ fit_transform_run v_mf_bad [[[("a", FV.num 1)]]]
        ≠ .error (.notImplementedError "vocabulary cannot be limited... yet")
    ∧ fit v_mf [[[("a", FV.num 1)]]] = v_mf := by
  have h1 : fit_transform_run v_mf [] = .error (.valueError "empty vocabulary") := rfl
  have h3 : fit_transform_run v_mf_bad [[[("a", FV.num 1)]]]
      = .error (.valueError "max_df corresponds to < documents than min_df") := by
    rw [fit_transform_run_grow v_mf_bad [[[("a", FV.num 1)]]] rfl,
      if_neg (by decide), if_pos (by decide)]
  refine ⟨h1, ?_, h3, ?_, rfl⟩
  · rw [h1]
    simp
  · rw [h3]
    simp

/-- **C8 (amended).**  A supplied `max_features` is never silently
honored-then-ignored when no fixed vocabulary is given: a non-integral
or non-positive value is rejected at construction (with the
`max_features` message once the threshold sign check passes); with a
positive integral cap no `fit_transform` run without a fixed vocabulary
ever succeeds — it fails with `NotImplementedError` from
`_limit_vocabulary` as soon as the corpus yields a feature and the
resolved bounds are consistent, the empty-vocabulary and threshold
errors firing first otherwise; `fit` itself never raises, returning
`self` unchanged, because it discards the generator it creates. -/
theorem max_features_unsupported (max_df min_df : Thresh)
    (voc : Option Vocab) (sep : String) (q : ℚ) (n : ℤ)
    (v : DocumentCountVectorizer) (corpus : List RawDoc) :
    (∀ w, mk_vectorizer max_df min_df (some (.float q)) voc sep ≠ .ok w)
    ∧ (n ≤ 0 → ∀ w, mk_vectorizer max_df min_df (some (.int n)) voc sep ≠ .ok w)
    ∧ (¬(max_df.val < 0 ∨ min_df.val < 0) →
        mk_vectorizer max_df min_df (some (.float q)) voc sep
          = .error (.valueError "max_features should be int > 0 or None"))
    ∧ (¬(max_df.val < 0 ∨ min_df.val < 0) → n ≤ 0 →
        mk_vectorizer max_df min_df (some (.int n)) voc sep
          = .error (.valueError "max_features should be int > 0 or None"))
    ∧ (v.max_features.isSome → v.vocabulary = none →
        ∀ res, fit_transform_run v corpus ≠ .ok res)
    ∧ (v.max_features.isSome → v.vocabulary = none →
        corpus_vocab v.separator corpus ≠ [] →
        ¬(v.max_df.resolve corpus.length < v.min_df.resolve corpus.length) →
        fit_transform_run v corpus
          = .error (.notImplementedError "vocabulary cannot be limited... yet"))
    ∧ fit v corpus = v := by
  have hrun : v.max_features.isSome → v.vocabulary = none →
      corpus_vocab v.separator corpus ≠ [] →
      ¬(v.max_df.resolve corpus.length < v.min_df.resolve corpus.length) →
      fit_transform_run v corpus
        = .error (.notImplementedError "vocabulary cannot be limited... yet") := by
    intro hmf hvoc hne hge
    rw [fit_transform_run_grow v corpus hvoc, if_neg hne, if_neg hge, if_pos hmf]
  refine ⟨?_, ?_, ?_, ?_, ?_, hrun, rfl⟩
  · intro w
    unfold mk_vectorizer
    split
    · simp
    · simp
  · intro hn w
    unfold mk_vectorizer
    split
    · simp
    · simp [hn]
  · intro h
    unfold mk_vectorizer
    rw [if_neg h]
  · intro h hn
    unfold mk_vectorizer
    rw [if_neg h]
    simp [hn]
  · intro hmf hvoc res
    rw [fit_transform_run_grow v corpus hvoc]
    by_cases h1 : corpus_vocab v.separator corpus = []
    · simp [h1]
    · by_cases h2 : v.max_df.resolve corpus.length < v.min_df.resolve corpus.length
      · simp [h1, h2]
      · simp [h1, h2, hmf]

/-- Witness for C8: `max_features=2.5` and `max_features=0` are rejected
at construction, and `max_features=3` makes a one-feature
`fit_transform` run fail with `NotImplementedError`. -/
theorem max_features_unsupported_witness :
    mk_vectorizer (.int 5) (.int 1) (some (.float (5 / 2))) none "="
        = .error (.valueError "max_features should be int > 0 or None")
    ∧ mk_vectorizer (.int 5) (.int 1) (some (.int 0)) none "="
        = .error (.valueError "max_features should be int > 0 or None")
    ∧ fit_transform_run v_mf [[[("a", FV.num 1)]]]
        = .error (.notImplementedError "vocabulary cannot be limited... yet") := by
  refine ⟨?_, ?_, ?_⟩
  · exact (max_features_unsupported (.int 5) (.int 1) none "=" (5 / 2) 0 v_mf []).2.2.1
      (by decide)
  · exact (max_features_unsupported (.int 5) (.int 1) none "=" 0 0 v_mf []).2.2.2.1
      (by decide) (by decide)
  · exact (max_features_unsupported (.int 5) (.int 1) none "=" 0 3 v_mf
      [[[("a", FV.num 1)]]]).2.2.2.2.2.1 (by decide) (by decide) (by decide) (by decide)

end Educe
